import Mathlib

/-!
# Inventory/flash-sale scenario: shallow embedding

Shallow embedding of `src/business_logic/ecommerce_inventory_overselling_scenario.py`
(the `InventoryManager` class, its reservation operations, order creation and
reporting, and the flash-sale driver's discrepancy computation).

Modelling conventions:
* Python `dict` fields become association lists (`List (String × Product)`);
  `dict.get` becomes `List.lookup`, `dict[k] = v` on an existing key becomes
  an in-place value replacement (`updateProduct`).
* Python `int` becomes `Int` (stock may go negative, which is the point of the
  scenario); the float `price` is modelled exactly as a rational — it never
  enters any computation.
* Methods that mutate `self` become functions `InventoryManager → ... × InventoryManager`
  returning the post state.  A raised exception is an `Except.error` result;
  the post state still carries every mutation made before the `raise`, as in
  Python.  `ValueError` (the "OVERSELLING DETECTED" signal) and `KeyError`
  (from `self.products[pid]` on a missing key) are distinguished because
  `create_order` catches only `ValueError`.
* `time.sleep` / `print` calls have no effect on the state and are dropped.
* `reserve_inventory_safe` holds `self.lock` for its whole body, so concurrent
  safe-mode calls serialize: a sequence of safe calls is modelled as a fold.
* `reserve_inventory_unsafe` (embedded as `unsafeReserve`) reads the stock
  (`unsafeCheck`) and decrements it
  (`unsafeDecrement`) in two separate steps with a sleep between them; the
  interleaved execution of several unsafe callers is modelled by the small-step
  system `stepThread` / `runSchedule` below, where a schedule picks which
  thread moves next.
* `f"order_{len(self.orders)}_{user_id}_{int(time.time())}"` is modelled by
  `mkOrderId`, with Python's decimal formatting of a non-negative integer
  modelled by the explicit decimal-digit function `natStr`, and the wall-clock
  reading `int(time.time())` passed in as a `now : Nat` parameter.
-/

/-- `Product` dataclass (id, name, price, inventory_count). -/
structure Product where
  id : String
  name : String
  price : ℚ
  inventory_count : Int
deriving DecidableEq

/-- `Order` dataclass (order_id, user_id, product_id, quantity, timestamp, status).
The timestamp is the `now` parameter threaded in for `time.time()`. -/
structure Order where
  order_id : String
  user_id : String
  product_id : String
  quantity : Int
  timestamp : Nat
  status : String
deriving DecidableEq

/-- The exceptions the reservation paths can raise: the `ValueError`
("OVERSELLING DETECTED", carrying the resulting stock) raised by
`reserve_inventory_unsafe`, and the `KeyError` raised by `self.products[pid]`
when the key is absent. -/
inductive ReserveError where
  | oversellingDetected (product_id : String) (newCount : Int)
  | keyError (product_id : String)
deriving DecidableEq

/-- The mutable state of an `InventoryManager`: the product map and the order
log.  The lock is not data; it only serializes the safe path. -/
structure InventoryManager where
  products : List (String × Product)
  orders : List Order
deriving DecidableEq

/-- `InventoryManager.__init__`: the fixed seed catalogue, empty order log. -/
def initManager : InventoryManager :=
  { products :=
      [ ("laptop_001", ⟨"laptop_001", "Gaming Laptop", 1299.99, 5⟩),
        ("phone_002", ⟨"phone_002", "Smartphone", 899.99, 3⟩),
        ("tablet_003", ⟨"tablet_003", "Tablet", 499.99, 2⟩),
        ("headphones_004", ⟨"headphones_004", "Wireless Headphones", 199.99, 10⟩) ],
    orders := [] }

/-- `get_product_inventory`: `self.products.get(pid)`, returning the product's
count, or 0 if the product is unknown. -/
def get_product_inventory (m : InventoryManager) (product_id : String) : Int :=
  match m.products.lookup product_id with
  | some p => p.inventory_count
  | none => 0

/-- `self.products[pid].inventory_count -= q`-style in-place update: replace the
value stored under an existing key, leaving every other entry alone. -/
def updateProduct : List (String × Product) → String → Product → List (String × Product)
  | [], _, _ => []
  | (k, v) :: rest, product_id, p =>
      if k == product_id then (k, p) :: rest else (k, v) :: updateProduct rest product_id p

/-- `reserve_inventory_safe`: under the lock, check `current >= quantity` and,
if so, decrement.  `self.products[product_id]` raises `KeyError` when the
product is unknown (reachable only when the check `0 >= quantity` passes).
There is no overselling check on this path. -/
def reserve_inventory_safe (m : InventoryManager) (product_id : String) (quantity : Int) :
    Except ReserveError Bool × InventoryManager :=
  let current := get_product_inventory m product_id
  if quantity ≤ current then
    match m.products.lookup product_id with
    | none => (.error (.keyError product_id), m)
    | some p =>
        let p2 : Product := { p with inventory_count := p.inventory_count - quantity }
        (.ok true, { m with products := updateProduct m.products product_id p2 })
  else
    (.ok false, m)

/-- First half of `reserve_inventory_unsafe`: the non-atomic availability check
`current_inventory >= quantity` read from the shared state. -/
def unsafeCheck (m : InventoryManager) (product_id : String) (quantity : Int) : Bool :=
  quantity ≤ get_product_inventory m product_id

/-- Second half of `reserve_inventory_unsafe`, run after the sleep: look the
product up (`KeyError` if absent), apply the decrement unconditionally, then
raise the overselling `ValueError` — carrying the new, negative count — if the
decrement drove the count below zero.  The decrement is applied to the state
even when the error is raised. -/
def unsafeDecrement (m : InventoryManager) (product_id : String) (quantity : Int) :
    Except ReserveError Bool × InventoryManager :=
  match m.products.lookup product_id with
  | none => (.error (.keyError product_id), m)
  | some p =>
      let p2 : Product := { p with inventory_count := p.inventory_count - quantity }
      let m2 : InventoryManager := { m with products := updateProduct m.products product_id p2 }
      if p2.inventory_count < 0 then
        (.error (.oversellingDetected product_id p2.inventory_count), m2)
      else
        (.ok true, m2)

/-- `reserve_inventory_unsafe` (named `unsafeReserve` here) executed without
interference: the check
followed immediately by the decrement on the same state. -/
def unsafeReserve (m : InventoryManager) (product_id : String) (quantity : Int) :
    Except ReserveError Bool × InventoryManager :=
  if unsafeCheck m product_id quantity then unsafeDecrement m product_id quantity
  else (.ok false, m)

/-- Decimal digits of a natural number, most significant first — the model of
Python's decimal formatting of `len(self.orders)` and `int(time.time())`
inside the f-string. -/
def natDigits (n : Nat) : List Char :=
  if n < 10 then [Nat.digitChar n]
  else natDigits (n / 10) ++ [Nat.digitChar (n % 10)]
decreasing_by exact Nat.div_lt_self (by omega) (by omega)

/-- Decimal string of a natural number. -/
def natStr (n : Nat) : String := String.mk (natDigits n)

/-- `f"order_{len(self.orders)}_{user_id}_{int(time.time())}"`. -/
def mkOrderId (numOrders : Nat) (user_id : String) (now : Nat) : String :=
  "order_" ++ natStr numOrders ++ "_" ++ user_id ++ "_" ++ natStr now

/-- The reservation-method dispatch inside `create_order`:
`reserve_inventory_safe` when `use_safe_reservation` is set, otherwise
`unsafeReserve`. -/
def reserveResult (m : InventoryManager) (product_id : String) (quantity : Int)
    (use_safe_reservation : Bool) : Except ReserveError Bool × InventoryManager :=
  if use_safe_reservation then reserve_inventory_safe m product_id quantity
  else unsafeReserve m product_id quantity

/-- `create_order`: compute the order id from the current log length, run the
chosen reservation, and append exactly one order — `confirmed` on `True`,
`failed_insufficient_inventory` on `False`, `failed_overselling` when the
overselling `ValueError` is caught (and re-raised).  A `KeyError` is *not*
caught by `except ValueError`: it propagates and no order is appended. -/
def create_order (m : InventoryManager) (user_id product_id : String) (quantity : Int)
    (use_safe_reservation : Bool) (now : Nat) :
    Except ReserveError Order × InventoryManager :=
  let order_id := mkOrderId m.orders.length user_id now
  let res := reserveResult m product_id quantity use_safe_reservation
  let m1 := res.2
  match res.1 with
  | .ok true =>
      let o : Order := ⟨order_id, user_id, product_id, quantity, now, "confirmed"⟩
      (.ok o, { m1 with orders := m1.orders ++ [o] })
  | .ok false =>
      let o : Order := ⟨order_id, user_id, product_id, quantity, now, "failed_insufficient_inventory"⟩
      (.ok o, { m1 with orders := m1.orders ++ [o] })
  | .error (.oversellingDetected pid v) =>
      let o : Order := ⟨order_id, user_id, product_id, quantity, now, "failed_overselling"⟩
      (.error (.oversellingDetected pid v), { m1 with orders := m1.orders ++ [o] })
  | .error (.keyError pid) =>
      (.error (.keyError pid), m1)

/-- Per-product entry of `get_inventory_report`. -/
structure ProductReportEntry where
  name : String
  current_inventory : Int
  orders_for_product : Nat
deriving DecidableEq

/-- The `orders` summary of `get_inventory_report`. -/
structure OrdersSummary where
  total : Nat
  confirmed : Nat
  failed : Nat
deriving DecidableEq

/-- The dictionary returned by `get_inventory_report`. -/
structure InventoryReport where
  products : List (String × ProductReportEntry)
  orders : OrdersSummary
deriving DecidableEq

/-- `get_inventory_report`: totals over the order log plus, for each product,
its current count and the number of its confirmed orders.  It only reads the
state (in the embedding it does not even return a successor state). -/
def get_inventory_report (m : InventoryManager) : InventoryReport :=
  { products := m.products.map (fun kv =>
      (kv.1,
        { name := kv.2.name,
          current_inventory := kv.2.inventory_count,
          orders_for_product :=
            (m.orders.filter (fun o => o.product_id == kv.1 && o.status == "confirmed")).length })),
    orders :=
      { total := m.orders.length,
        confirmed := (m.orders.filter (fun o => o.status == "confirmed")).length,
        failed := (m.orders.filter (fun o => String.startsWith o.status ("failed"))).length } }

/-- One purchase attempt of the driver: the arguments a simulated customer
passes to `create_order`, plus the wall-clock value observed during the call. -/
structure PurchaseRequest where
  user_id : String
  product_id : String
  quantity : Int
  use_safe : Bool
  now : Nat

/-- A sequence of purchase attempts applied to the manager in order. -/
def runOrders (m : InventoryManager) (rs : List PurchaseRequest) : InventoryManager :=
  rs.foldl
    (fun acc r => (create_order acc r.user_id r.product_id r.quantity r.use_safe r.now).2) m

/-- A serialized sequence of safe-mode reservations against one product (the
lock makes any concurrent execution equivalent to such a sequence). -/
def runSafeReserves (m : InventoryManager) (product_id : String) (qs : List Int) :
    InventoryManager :=
  qs.foldl (fun acc q => (reserve_inventory_safe acc product_id q).2) m

/-- `total_units_sold` in `run_flash_sale_simulation`: the summed quantity of
the confirmed orders. -/
def total_units_sold (orders : List Order) : Int :=
  ((orders.filter (fun o => o.status == "confirmed")).map (fun o => o.quantity)).sum

/-- The driver's discrepancy: `final_inventory - (initial_inventory - total_units_sold)`. -/
def inventory_discrepancy (initial final : Int) (orders : List Order) : Int :=
  final - (initial - total_units_sold orders)

instance : DecidableEq (Except ReserveError Bool) := fun a b =>
  match a, b with
  | .ok x, .ok y =>
      if h : x = y then .isTrue (congrArg Except.ok h)
      else .isFalse (fun hc => h (Except.ok.inj hc))
  | .error x, .error y =>
      if h : x = y then .isTrue (congrArg Except.error h)
      else .isFalse (fun hc => h (Except.error.inj hc))
  | .ok _, .error _ => .isFalse (fun hc => Except.noConfusion hc)
  | .error _, .ok _ => .isFalse (fun hc => Except.noConfusion hc)

/-- Where an unsafe caller stands between the two racy halves of
`unsafeReserve`. -/
inductive Phase where
  | ready
  | checked
  | done (res : Except ReserveError Bool)
deriving DecidableEq

/-- One concurrent unsafe caller: its requested quantity and its progress. -/
structure ThreadCfg where
  quantity : Int
  phase : Phase
deriving DecidableEq

/-- The whole interleaved system: the shared manager and the caller threads. -/
structure SysState where
  mgr : InventoryManager
  threads : List ThreadCfg
deriving DecidableEq

/-- All callers poised at the start of `unsafeReserve`, each with
its quantity, against the shared manager. -/
def initSys (m : InventoryManager) (qs : List Int) : SysState :=
  { mgr := m, threads := qs.map (fun q => { quantity := q, phase := .ready }) }

/-- Let thread `i` take its next step of `unsafeReserve` against
product `pid`: from `ready` it runs the check (moving to `checked`, or
finishing with `False`); from `checked` it runs the decrement, which may
raise.  A finished thread does not move. -/
def stepThread (s : SysState) (pid : String) (i : Nat) : SysState :=
  match s.threads[i]? with
  | none => s
  | some t =>
      match t.phase with
      | .ready =>
          if unsafeCheck s.mgr pid t.quantity then
            { s with threads := s.threads.set i { t with phase := .checked } }
          else
            { s with threads := s.threads.set i { t with phase := .done (.ok false) } }
      | .checked =>
          let r := unsafeDecrement s.mgr pid t.quantity
          { mgr := r.2, threads := s.threads.set i { t with phase := .done r.1 } }
      | .done _ => s

/-- Run a schedule: the list of thread indices, in the order they move. -/
def runSchedule (s : SysState) (pid : String) (sched : List Nat) : SysState :=
  sched.foldl (fun acc i => stepThread acc pid i) s

/-- The numeric value of a most-significant-first digit string; inverse of
`natDigits`, used to read the log-length component back out of an order id. -/
def digitsVal (l : List Char) : Nat :=
  l.foldl (fun a c => 10 * a + (c.toNat - 48)) 0

/-- Recover the `len(self.orders)` component of an id built by `mkOrderId`:
skip the six characters of `"order_"` and read the digits up to the next
underscore. -/
def extractIdx (s : String) : Nat :=
  digitsVal ((s.data.drop 6).takeWhile (fun c => c != '_'))

/-- Every order in the log sits at the position recorded in its own id: the
invariant behind uniqueness of order ids. -/
def idsIndexed (m : InventoryManager) : Prop :=
  ∀ (j : Nat) (h : j < m.orders.length), extractIdx (m.orders[j].order_id) = j

/-! ## Lemmas about the product map -/

theorem lookup_updateProduct_self {l : List (String × Product)} {pid : String} {p0 : Product}
    (h : l.lookup pid = some p0) (p : Product) :
    (updateProduct l pid p).lookup pid = some p := by
  induction l with
  | nil => simp [List.lookup] at h
  | cons kv rest ih =>
    obtain ⟨k, v⟩ := kv
    by_cases hk : k = pid
    · subst hk
      simp [updateProduct, List.lookup]
    · have hkp : (k == pid) = false := beq_eq_false_iff_ne.mpr hk
      have hpk : (pid == k) = false := beq_eq_false_iff_ne.mpr (Ne.symm hk)
      simp only [List.lookup, hpk] at h
      simp only [updateProduct, hkp, if_false, List.lookup, hpk]
      exact ih h

theorem lookup_updateProduct_ne (l : List (String × Product)) (pid k : String) (p : Product)
    (hne : k ≠ pid) :
    (updateProduct l pid p).lookup k = l.lookup k := by
  induction l with
  | nil => simp [updateProduct]
  | cons kv rest ih =>
    obtain ⟨k0, v⟩ := kv
    by_cases hk : k0 = pid
    · subst hk
      have hkk : (k == k0) = false := beq_eq_false_iff_ne.mpr hne
      simp [updateProduct, List.lookup, hkk]
    · have hkp : (k0 == pid) = false := beq_eq_false_iff_ne.mpr hk
      simp only [updateProduct, hkp, if_false]
      by_cases hkk : k = k0
      · subst hkk
        simp [List.lookup]
      · have hb : (k == k0) = false := beq_eq_false_iff_ne.mpr hkk
        simp only [List.lookup, hb]
        exact ih

theorem get_product_inventory_update {m : InventoryManager} {pid : String} {p0 : Product}
    (h : m.products.lookup pid = some p0) (p : Product) :
    get_product_inventory { m with products := updateProduct m.products pid p } pid
      = p.inventory_count := by
  simp [get_product_inventory, lookup_updateProduct_self h p]

theorem get_product_inventory_of_lookup {m : InventoryManager} {pid : String} {p : Product}
    (h : m.products.lookup pid = some p) :
    get_product_inventory m pid = p.inventory_count := by
  simp [get_product_inventory, h]

/-! ## Characterization of the two reservation paths on a known product -/

theorem reserve_safe_eq {m : InventoryManager} {pid : String} {p : Product} (q : Int)
    (h : m.products.lookup pid = some p) :
    reserve_inventory_safe m pid q =
      if q ≤ p.inventory_count then
        (.ok true,
          { m with products :=
              updateProduct m.products pid { p with inventory_count := p.inventory_count - q } })
      else (.ok false, m) := by
  unfold reserve_inventory_safe
  rw [get_product_inventory_of_lookup h, h]

theorem reserve_unsafe_eq {m : InventoryManager} {pid : String} {p : Product} (q : Int)
    (h : m.products.lookup pid = some p) :
    unsafeReserve m pid q =
      if q ≤ p.inventory_count then
        (.ok true,
          { m with products :=
              updateProduct m.products pid { p with inventory_count := p.inventory_count - q } })
      else (.ok false, m) := by
  unfold unsafeReserve unsafeCheck unsafeDecrement
  rw [get_product_inventory_of_lookup h, h]
  by_cases hle : q ≤ p.inventory_count
  · have hnn : ¬ (p.inventory_count - q < 0) := by omega
    simp [hle, hnn]
  · simp [hle]

theorem reserve_safe_orders (m : InventoryManager) (pid : String) (q : Int) :
    (reserve_inventory_safe m pid q).2.orders = m.orders := by
  rcases h : m.products.lookup pid with _ | p
  · unfold reserve_inventory_safe
    rw [h]
    dsimp only
    split <;> rfl
  · rw [reserve_safe_eq q h]
    split <;> rfl

theorem reserve_unsafe_orders (m : InventoryManager) (pid : String) (q : Int) :
    (unsafeReserve m pid q).2.orders = m.orders := by
  rcases h : m.products.lookup pid with _ | p
  · unfold unsafeReserve unsafeDecrement
    rw [h]
    dsimp only
    split <;> rfl
  · rw [reserve_unsafe_eq q h]
    split <;> rfl

theorem reserveResult_orders (m : InventoryManager) (pid : String) (q : Int) (safe : Bool) :
    (reserveResult m pid q safe).2.orders = m.orders := by
  unfold reserveResult
  cases safe <;> simp [reserve_safe_orders, reserve_unsafe_orders]

/-! ## The two reservation paths on an unknown product -/

theorem reserve_safe_none_pos {m : InventoryManager} {pid : String} {q : Int}
    (h : m.products.lookup pid = none) (hq : 1 ≤ q) :
    reserve_inventory_safe m pid q = (.ok false, m) := by
  unfold reserve_inventory_safe
  have hg : get_product_inventory m pid = 0 := by simp [get_product_inventory, h]
  have hne : ¬ (q ≤ (0 : Int)) := by omega
  simp [hg, hne]

theorem reserve_safe_none_nonpos {m : InventoryManager} {pid : String} {q : Int}
    (h : m.products.lookup pid = none) (hq : q ≤ 0) :
    reserve_inventory_safe m pid q = (.error (.keyError pid), m) := by
  unfold reserve_inventory_safe
  have hg : get_product_inventory m pid = 0 := by simp [get_product_inventory, h]
  simp [hg, hq, h]

theorem reserve_unsafe_none_pos {m : InventoryManager} {pid : String} {q : Int}
    (h : m.products.lookup pid = none) (hq : 1 ≤ q) :
    unsafeReserve m pid q = (.ok false, m) := by
  unfold unsafeReserve unsafeCheck
  have hg : get_product_inventory m pid = 0 := by simp [get_product_inventory, h]
  have hne : ¬ (q ≤ (0 : Int)) := by omega
  simp [hg, hne]

theorem reserve_unsafe_none_nonpos {m : InventoryManager} {pid : String} {q : Int}
    (h : m.products.lookup pid = none) (hq : q ≤ 0) :
    unsafeReserve m pid q = (.error (.keyError pid), m) := by
  unfold unsafeReserve unsafeCheck unsafeDecrement
  have hg : get_product_inventory m pid = 0 := by simp [get_product_inventory, h]
  simp [hg, hq, h]

/-! ## C1: the safe path keeps the stock non-negative -/

theorem safe_step_nonneg {m : InventoryManager} {pid : String} {q : Int}
    (h0 : 0 ≤ get_product_inventory m pid) (hq : 1 ≤ q) :
    0 ≤ get_product_inventory (reserve_inventory_safe m pid q).2 pid := by
  rcases h : m.products.lookup pid with _ | p
  · rw [reserve_safe_none_pos h hq]
    exact h0
  · have hs : get_product_inventory m pid = p.inventory_count :=
      get_product_inventory_of_lookup h
    rw [reserve_safe_eq q h]
    by_cases hle : q ≤ p.inventory_count
    · simp only [hle, if_true]
      rw [get_product_inventory_update h]
      show 0 ≤ p.inventory_count - q
      omega
    · simp only [hle, if_false]
      exact h0

/-- **C1.** For every initial stock ≥ 0 and every sequence of safe-mode
reservations (`reserve_inventory_safe`) against a single product with
quantities ≥ 1, the product's stock count is non-negative after every prefix
of the sequence — in particular at the end.  The lock serializes concurrent
safe calls, so any concurrent execution is one of these sequences. -/
theorem safe_sequence_stock_nonneg (m : InventoryManager) (pid : String) (qs : List Int)
    (h0 : 0 ≤ get_product_inventory m pid) (hqs : ∀ q ∈ qs, 1 ≤ q) :
    ∀ n : Nat, 0 ≤ get_product_inventory (runSafeReserves m pid (qs.take n)) pid := by
  induction qs generalizing m with
  | nil =>
      intro n
      simpa [runSafeReserves] using h0
  | cons q rest ih =>
      intro n
      cases n with
      | zero => simpa [runSafeReserves] using h0
      | succ k =>
          have hq : 1 ≤ q := hqs q (by simp)
          have hrest : ∀ x ∈ rest, 1 ≤ x := fun x hx => hqs x (by simp [hx])
          have hstep := safe_step_nonneg h0 hq
          have := ih (m := (reserve_inventory_safe m pid q).2) hstep hrest k
          simpa [runSafeReserves, List.take_succ_cons] using this

/-- Witness for C1 at a concrete run: initial tablet stock 2, safe quantities
`[1, 2]`, whole sequence taken. -/
theorem safe_sequence_stock_nonneg_witness :
    0 ≤ get_product_inventory
        (runSafeReserves initManager ("tablet_003") (List.take 2 [1, 2])) ("tablet_003") :=
  safe_sequence_stock_nonneg initManager ("tablet_003") [1, 2] (by decide) (by decide) 2

/-! ## C3: reserve on a known product -/

/-- **C3.** For every product known to the ledger and every quantity, a
reserve call (either mode, executed without interference) returns `True` iff
the stock at call time is ≥ quantity; in that case the stock is decremented by
exactly the quantity while the order log and every other product are
untouched; when it returns `False` the whole state is unchanged. -/
theorem reserve_true_iff_stock_available (m : InventoryManager) (pid : String) (q : Int)
    (p : Product) (h : m.products.lookup pid = some p) :
    (((reserve_inventory_safe m pid q).1 = .ok true ↔ q ≤ p.inventory_count) ∧
     ((unsafeReserve m pid q).1 = .ok true ↔ q ≤ p.inventory_count)) ∧
    (q ≤ p.inventory_count →
      get_product_inventory (reserve_inventory_safe m pid q).2 pid = p.inventory_count - q ∧
      get_product_inventory (unsafeReserve m pid q).2 pid = p.inventory_count - q ∧
      (reserve_inventory_safe m pid q).2.orders = m.orders ∧
      (unsafeReserve m pid q).2.orders = m.orders ∧
      (∀ k : String, k ≠ pid →
        (reserve_inventory_safe m pid q).2.products.lookup k = m.products.lookup k ∧
        (unsafeReserve m pid q).2.products.lookup k = m.products.lookup k)) ∧
    (p.inventory_count < q →
      reserve_inventory_safe m pid q = (.ok false, m) ∧
      unsafeReserve m pid q = (.ok false, m)) := by
  have hsafe := reserve_safe_eq q h
  have hu := reserve_unsafe_eq q h
  by_cases hle : q ≤ p.inventory_count
  · rw [if_pos hle] at hsafe hu
    refine ⟨⟨?_, ?_⟩, ?_, ?_⟩
    · rw [hsafe]; simp [hle]
    · rw [hu]; simp [hle]
    · intro _
      refine ⟨?_, ?_, ?_, ?_, ?_⟩
      · rw [hsafe]; exact get_product_inventory_update h _
      · rw [hu]; exact get_product_inventory_update h _
      · rw [hsafe]
      · rw [hu]
      · intro k hk
        exact ⟨by rw [hsafe]; exact lookup_updateProduct_ne _ _ _ _ hk,
               by rw [hu]; exact lookup_updateProduct_ne _ _ _ _ hk⟩
    · intro hlt
      exact absurd hle (by omega)
  · rw [if_neg hle] at hsafe hu
    refine ⟨⟨?_, ?_⟩, ?_, fun _ => ⟨hsafe, hu⟩⟩
    · rw [hsafe]; simp [hle]
    · rw [hu]; simp [hle]
    · intro hle2
      exact absurd hle2 hle

/-- Witness for C3: requesting 6 laptops out of 5 is rejected, by both paths,
without mutation. -/
theorem reserve_true_iff_stock_available_witness :
    reserve_inventory_safe initManager ("laptop_001") 6 = (.ok false, initManager) ∧
    unsafeReserve initManager ("laptop_001") 6 = (.ok false, initManager) :=
  (reserve_true_iff_stock_available initManager ("laptop_001") 6
      ⟨"laptop_001", "Gaming Laptop", 1299.99, 5⟩ rfl).2.2 (by decide)

/-! ## C4: the overselling condition -/

/-- **C4.** The overselling `ValueError` is raised only by the unsafe path —
the safe path never produces it — and the unsafe decrement step raises it
exactly when the decrement leaves the stock below zero; the error carries the
resulting negative stock, and the decrement has been applied to the ledger
when it propagates (the post state's stock is the old stock minus the
quantity, not rolled back). -/
theorem overselling_only_unsafe_below_zero :
    (∀ (m : InventoryManager) (pid : String) (q : Int) (pid2 : String) (v : Int),
        (reserve_inventory_safe m pid q).1 ≠ .error (.oversellingDetected pid2 v)) ∧
    (∀ (m : InventoryManager) (pid : String) (q : Int) (pid2 : String) (v : Int),
        (unsafeDecrement m pid q).1 = .error (.oversellingDetected pid2 v) →
        pid2 = pid ∧ v < 0 ∧ get_product_inventory (unsafeDecrement m pid q).2 pid = v ∧
        v = get_product_inventory m pid - q) ∧
    (∀ (m : InventoryManager) (pid : String) (q : Int) (p : Product),
        m.products.lookup pid = some p → p.inventory_count - q < 0 →
        (unsafeDecrement m pid q).1
          = .error (.oversellingDetected pid (p.inventory_count - q))) := by
  refine ⟨?_, ?_, ?_⟩
  · intro m pid q pid2 v
    rcases h : m.products.lookup pid with _ | p
    · by_cases hq : q ≤ (0 : Int)
      · rw [reserve_safe_none_nonpos h hq]
        simp
      · rw [reserve_safe_none_pos h (by omega)]
        simp
    · rw [reserve_safe_eq q h]
      split <;> simp
  · intro m pid q pid2 v hres
    rcases h : m.products.lookup pid with _ | p
    · unfold unsafeDecrement at hres
      rw [h] at hres
      simp at hres
    · unfold unsafeDecrement at hres ⊢
      rw [h] at hres ⊢
      dsimp only at hres ⊢
      by_cases hneg : p.inventory_count - q < 0
      · rw [if_pos hneg] at hres ⊢
        dsimp only at hres
        obtain ⟨hpid, hv⟩ := ReserveError.oversellingDetected.inj (Except.error.inj hres)
        subst hpid
        subst hv
        refine ⟨rfl, hneg, ?_, ?_⟩
        · exact get_product_inventory_update h _
        · rw [get_product_inventory_of_lookup h]
      · rw [if_neg hneg] at hres
        simp at hres
  · intro m pid q p h hneg
    unfold unsafeDecrement
    rw [h]
    dsimp only
    rw [if_pos hneg]

/-- Witness for C4: decrementing the tablet stock (2) by 5 raises the
overselling error carrying the new stock −3. -/
theorem overselling_only_unsafe_below_zero_witness :
    (unsafeDecrement initManager ("tablet_003") 5).1
      = .error (.oversellingDetected ("tablet_003") (-3)) :=
  overselling_only_unsafe_below_zero.2.2 initManager ("tablet_003") 5
    ⟨"tablet_003", "Tablet", 499.99, 2⟩ rfl (by decide)

/-! ## C5: there is no MalformedRequest validation -/

/-- **C5 — counterexample.**  The claim says a reserve call with an unknown
product surfaces a `MalformedRequest` condition immediately.  At the concrete
input (unknown product `ghost_999`, quantity 1) both paths return plain
`False` with the state untouched — no condition of any kind is raised. -/
theorem no_malformed_request_counterexample :
    reserve_inventory_safe initManager ("ghost_999") 1 = (.ok false, initManager) ∧
    unsafeReserve initManager ("ghost_999") 1 = (.ok false, initManager) :=
  ⟨rfl, rfl⟩

/-- **C5 (amended).**  Neither reserve path validates its request: an unknown
product with positive quantity is answered `False` with no condition and no
mutation; an unknown product with non-positive quantity raises `KeyError`
(before any mutation); a non-positive quantity against a known product whose
stock is ≥ the quantity (in particular any non-negative stock) is simply
accepted with `True`.  No `MalformedRequest` condition exists. -/
theorem malformed_request_behavior (m : InventoryManager) (pid : String) (q : Int) :
    (m.products.lookup pid = none → 1 ≤ q →
        reserve_inventory_safe m pid q = (.ok false, m) ∧
        unsafeReserve m pid q = (.ok false, m)) ∧
    (m.products.lookup pid = none → q ≤ 0 →
        reserve_inventory_safe m pid q = (.error (.keyError pid), m) ∧
        unsafeReserve m pid q = (.error (.keyError pid), m)) ∧
    (∀ p : Product, m.products.lookup pid = some p → q ≤ 0 → q ≤ p.inventory_count →
        (reserve_inventory_safe m pid q).1 = .ok true ∧
        (unsafeReserve m pid q).1 = .ok true) := by
  refine ⟨fun h hq => ⟨reserve_safe_none_pos h hq, reserve_unsafe_none_pos h hq⟩,
          fun h hq => ⟨reserve_safe_none_nonpos h hq, reserve_unsafe_none_nonpos h hq⟩,
          ?_⟩
  intro p h _ hle
  have hs := reserve_safe_eq q h
  have hu := reserve_unsafe_eq q h
  rw [if_pos hle] at hs hu
  exact ⟨by rw [hs], by rw [hu]⟩

/-- Witness for C5 (amended): unknown product `ghost_123`, quantity 2. -/
theorem malformed_request_behavior_witness :
    reserve_inventory_safe initManager ("ghost_123") 2 = (.ok false, initManager) ∧
    unsafeReserve initManager ("ghost_123") 2 = (.ok false, initManager) :=
  (malformed_request_behavior initManager ("ghost_123") 2).1 rfl (by decide)

/-! ## C7: an interleaving of 15 unsafe customers oversells stock 2 -/

set_option maxRecDepth 20000 in
/-- **C7.**  With the seeded stock 2 of `tablet_003` and 15 concurrent
customers each requesting quantity 1 under unsafe mode, there is an
interleaving of the check/decrement steps of `unsafeReserve` after
which the stock is strictly negative (all 15 checks pass against stock 2,
then all 15 decrements land, leaving −13). -/
theorem unsafe_interleaving_oversells :
    ∃ sched : List Nat,
      get_product_inventory
        (runSchedule (initSys initManager (List.replicate 15 1)) ("tablet_003") sched).mgr
        ("tablet_003") < 0 :=
  ⟨List.range 15 ++ List.range 15, by decide⟩

/-! ## C10: non-positive quantities -/

set_option maxRecDepth 20000 in
/-- **C10 — counterexample.**  The claim says reserve returns `True` for every
known product and every quantity ≤ 0.  But a race (two unsafe customers, each
taking 2 tablets from stock 2) leaves the product at stock −2; from that
reachable state, a reserve of quantity −1 fails the availability check
(−2 ≥ −1 is false) and both paths return `False`, not `True`. -/
theorem nonpositive_quantity_reserve_counterexample :
    ((runSchedule (initSys initManager ([2, 2])) ("tablet_003") ([0, 1, 0, 1])).mgr.products.lookup
        ("tablet_003")).isSome = true ∧
    get_product_inventory
        (runSchedule (initSys initManager ([2, 2])) ("tablet_003") ([0, 1, 0, 1])).mgr
        ("tablet_003") = -2 ∧
    (reserve_inventory_safe
        (runSchedule (initSys initManager ([2, 2])) ("tablet_003") ([0, 1, 0, 1])).mgr
        ("tablet_003") (-1)).1 = .ok false ∧
    (unsafeReserve
        (runSchedule (initSys initManager ([2, 2])) ("tablet_003") ([0, 1, 0, 1])).mgr
        ("tablet_003") (-1)).1 = .ok false := by
  exact ⟨by decide, by decide, by decide, by decide⟩

/-- **C10 (amended).**  For a known product and quantity ≤ 0, when the current
stock is ≥ the quantity (in particular whenever the stock is non-negative)
both reserve paths return `True` with no condition and change the stock by
−quantity: unchanged for quantity 0, strictly increased for a negative
quantity.  When the stock is itself below the (non-positive) quantity, both
paths instead return `False` and leave the state unchanged. -/
theorem nonpositive_quantity_reserve (m : InventoryManager) (pid : String) (q : Int)
    (p : Product) (h : m.products.lookup pid = some p) (hq : q ≤ 0) :
    (q ≤ p.inventory_count →
      (reserve_inventory_safe m pid q).1 = .ok true ∧
      (unsafeReserve m pid q).1 = .ok true ∧
      get_product_inventory (reserve_inventory_safe m pid q).2 pid = p.inventory_count - q ∧
      get_product_inventory (unsafeReserve m pid q).2 pid = p.inventory_count - q ∧
      (q = 0 →
        get_product_inventory (reserve_inventory_safe m pid q).2 pid = p.inventory_count) ∧
      (q < 0 →
        p.inventory_count < get_product_inventory (reserve_inventory_safe m pid q).2 pid)) ∧
    (p.inventory_count < q →
      reserve_inventory_safe m pid q = (.ok false, m) ∧
      unsafeReserve m pid q = (.ok false, m)) := by
  constructor
  · intro hle
    have hs := reserve_safe_eq q h
    have hu := reserve_unsafe_eq q h
    rw [if_pos hle] at hs hu
    have hgs : get_product_inventory (reserve_inventory_safe m pid q).2 pid
        = p.inventory_count - q := by
      rw [hs]; exact get_product_inventory_update h _
    have hgu : get_product_inventory (unsafeReserve m pid q).2 pid
        = p.inventory_count - q := by
      rw [hu]; exact get_product_inventory_update h _
    refine ⟨by rw [hs], by rw [hu], hgs, hgu, ?_, ?_⟩
    · intro h0; rw [hgs]; omega
    · intro hneg; rw [hgs]; omega
  · intro hlt
    have hs := reserve_safe_eq q h
    have hu := reserve_unsafe_eq q h
    rw [if_neg (by omega)] at hs hu
    exact ⟨hs, hu⟩

/-- Witness for C10 (amended): reserving −2 laptops from stock 5 is accepted
and raises the stock to 7. -/
theorem nonpositive_quantity_reserve_witness :
    (reserve_inventory_safe initManager ("laptop_001") (-2)).1 = .ok true ∧
    get_product_inventory
      (reserve_inventory_safe initManager ("laptop_001") (-2)).2 ("laptop_001") = 7 :=
  ⟨((nonpositive_quantity_reserve initManager ("laptop_001") (-2)
      ⟨"laptop_001", "Gaming Laptop", 1299.99, 5⟩ rfl (by decide)).1 (by decide)).1,
   ((nonpositive_quantity_reserve initManager ("laptop_001") (-2)
      ⟨"laptop_001", "Gaming Laptop", 1299.99, 5⟩ rfl (by decide)).1 (by decide)).2.2.1⟩

/-! ## How create_order rewrites by the outcome of the reservation -/

theorem create_order_ok_true (m m1 : InventoryManager) (u pid : String) (q : Int)
    (safe : Bool) (now : Nat) (h : reserveResult m pid q safe = (.ok true, m1)) :
    create_order m u pid q safe now =
      (.ok ⟨mkOrderId m.orders.length u now, u, pid, q, now, "confirmed"⟩,
       { m1 with orders :=
           m1.orders ++ [⟨mkOrderId m.orders.length u now, u, pid, q, now, "confirmed"⟩] }) := by
  simp only [create_order, h]

theorem create_order_ok_false (m m1 : InventoryManager) (u pid : String) (q : Int)
    (safe : Bool) (now : Nat) (h : reserveResult m pid q safe = (.ok false, m1)) :
    create_order m u pid q safe now =
      (.ok ⟨mkOrderId m.orders.length u now, u, pid, q, now,
              "failed_insufficient_inventory"⟩,
       { m1 with orders :=
           m1.orders
             ++ [⟨mkOrderId m.orders.length u now, u, pid, q, now,
                   "failed_insufficient_inventory"⟩] }) := by
  simp only [create_order, h]

theorem create_order_oversell (m m1 : InventoryManager) (u pid pid2 : String) (q v : Int)
    (safe : Bool) (now : Nat)
    (h : reserveResult m pid q safe = (.error (.oversellingDetected pid2 v), m1)) :
    create_order m u pid q safe now =
      (.error (.oversellingDetected pid2 v),
       { m1 with orders :=
           m1.orders
             ++ [⟨mkOrderId m.orders.length u now, u, pid, q, now, "failed_overselling"⟩] }) := by
  simp only [create_order, h]

theorem create_order_keyError (m m1 : InventoryManager) (u pid pid2 : String) (q : Int)
    (safe : Bool) (now : Nat)
    (h : reserveResult m pid q safe = (.error (.keyError pid2), m1)) :
    create_order m u pid q safe now = (.error (.keyError pid2), m1) := by
  simp only [create_order, h]

/-! ## C2: conservation under the safe path -/

theorem total_units_sold_append (os : List Order) (o : Order) :
    total_units_sold (os ++ [o])
      = total_units_sold os + (if o.status = "confirmed" then o.quantity else 0) := by
  unfold total_units_sold
  rw [List.filter_append]
  by_cases hc : o.status = "confirmed"
  · simp [hc]
  · simp [hc]

theorem reserveResult_safe (m : InventoryManager) (pid : String) (q : Int) :
    reserveResult m pid q true = reserve_inventory_safe m pid q := rfl

theorem get_update_any {l : List (String × Product)} {pid : String} {p0 : Product}
    (h : l.lookup pid = some p0) (p : Product) (os : List Order) :
    get_product_inventory ⟨updateProduct l pid p, os⟩ pid = p.inventory_count := by
  unfold get_product_inventory
  dsimp only
  rw [lookup_updateProduct_self h]

theorem safe_order_step {s0 : Int} {m : InventoryManager} {pid : String}
    (u : String) (q : Int) (now : Nat) (hq : 1 ≤ q)
    (hinv : get_product_inventory m pid = s0 - total_units_sold m.orders) :
    get_product_inventory (create_order m u pid q true now).2 pid
      = s0 - total_units_sold (create_order m u pid q true now).2.orders := by
  rcases h : m.products.lookup pid with _ | p
  · have hrr : reserveResult m pid q true = (.ok false, m) := by
      rw [reserveResult_safe, reserve_safe_none_pos h hq]
    rw [create_order_ok_false m m u pid q true now hrr]
    rw [total_units_sold_append]
    show get_product_inventory m pid = _
    simp
    omega
  · by_cases hle : q ≤ p.inventory_count
    · have hrr : reserveResult m pid q true
          = (.ok true,
             { m with products := updateProduct m.products pid { p with inventory_count := p.inventory_count - q } }) := by
        rw [reserveResult_safe, reserve_safe_eq q h, if_pos hle]
      rw [create_order_ok_true _ _ u pid q true now hrr]
      rw [total_units_sold_append]
      have hget : get_product_inventory m pid = p.inventory_count :=
        get_product_inventory_of_lookup h
      rw [get_update_any h]
      show p.inventory_count - q = _
      simp
      omega
    · have hrr : reserveResult m pid q true = (.ok false, m) := by
        rw [reserveResult_safe, reserve_safe_eq q h, if_neg hle]
      rw [create_order_ok_false m m u pid q true now hrr]
      rw [total_units_sold_append]
      show get_product_inventory m pid = _
      simp
      omega

theorem runOrders_conservation {s0 : Int} {pid : String} (rs : List PurchaseRequest)
    {m : InventoryManager}
    (hinv : get_product_inventory m pid = s0 - total_units_sold m.orders)
    (hr : ∀ r ∈ rs, r.product_id = pid ∧ 1 ≤ r.quantity ∧ r.use_safe = true) :
    get_product_inventory (runOrders m rs) pid
      = s0 - total_units_sold (runOrders m rs).orders := by
  induction rs generalizing m with
  | nil => simpa [runOrders] using hinv
  | cons r rest ih =>
      obtain ⟨hpid, hq, hsafe⟩ := hr r (by simp)
      have hrest : ∀ x ∈ rest, x.product_id = pid ∧ 1 ≤ x.quantity ∧ x.use_safe = true :=
        fun x hx => hr x (by simp [hx])
      have hstep := safe_order_step (m := m) r.user_id r.quantity r.now hq hinv
      have := ih (m := (create_order m r.user_id pid r.quantity true r.now).2) hstep hrest
      simpa [runOrders, hpid, hsafe] using this

/-- **C2.**  Under safe mode, for every sequence of `create_order` calls
against one product with positive quantities, after every prefix the stock
equals the initial stock minus the summed quantity of the confirmed orders in
the log, and the driver's computed discrepancy over the whole run is 0. -/
theorem safe_conservation (m0 : InventoryManager) (pid : String) (rs : List PurchaseRequest)
    (h0 : m0.orders = [])
    (hr : ∀ r ∈ rs, r.product_id = pid ∧ 1 ≤ r.quantity ∧ r.use_safe = true) :
    (∀ n : Nat,
      get_product_inventory (runOrders m0 (rs.take n)) pid
        = get_product_inventory m0 pid
            - total_units_sold (runOrders m0 (rs.take n)).orders) ∧
    inventory_discrepancy (get_product_inventory m0 pid)
        (get_product_inventory (runOrders m0 rs) pid) (runOrders m0 rs).orders = 0 := by
  have hbase : get_product_inventory m0 pid
      = get_product_inventory m0 pid - total_units_sold m0.orders := by
    simp [h0, total_units_sold]
  constructor
  · intro n
    exact runOrders_conservation (rs.take n) hbase
      (fun r hrm => hr r (List.take_subset n rs hrm))
  · have hall := runOrders_conservation rs hbase hr
    unfold inventory_discrepancy
    omega

/-- Witness for C2: two safe purchases of 2 phones each against stock 3 — the
first confirms, the second is rejected — and the discrepancy is 0. -/
theorem safe_conservation_witness :
    inventory_discrepancy (get_product_inventory initManager ("phone_002"))
      (get_product_inventory
        (runOrders initManager
          [⟨"u0", "phone_002", 2, true, 11⟩, ⟨"u1", "phone_002", 2, true, 12⟩])
        ("phone_002"))
      (runOrders initManager
          [⟨"u0", "phone_002", 2, true, 11⟩, ⟨"u1", "phone_002", 2, true, 12⟩]).orders = 0 :=
  (safe_conservation initManager ("phone_002")
      [⟨"u0", "phone_002", 2, true, 11⟩, ⟨"u1", "phone_002", 2, true, 12⟩]
      rfl (by decide)).2

/-! ## C6: exactly one order per attempt, except the uncaught KeyError -/

theorem reserveResult_unsafe_eq (m : InventoryManager) (pid : String) (q : Int) :
    reserveResult m pid q false = unsafeReserve m pid q := rfl

theorem reserveResult_not_keyError (m : InventoryManager) (pid : String) (q : Int) (safe : Bool)
    (h : (m.products.lookup pid).isSome = true ∨ 1 ≤ q) :
    ∀ pid2, (reserveResult m pid q safe).1 ≠ .error (.keyError pid2) := by
  intro pid2
  rcases hl : m.products.lookup pid with _ | p
  · rcases h with h | h
    · rw [hl] at h
      simp at h
    · cases safe
      · rw [reserveResult_unsafe_eq, reserve_unsafe_none_pos hl h]
        simp
      · rw [reserveResult_safe, reserve_safe_none_pos hl h]
        simp
  · cases safe
    · rw [reserveResult_unsafe_eq, reserve_unsafe_eq q hl]
      split <;> simp
    · rw [reserveResult_safe, reserve_safe_eq q hl]
      split <;> simp

theorem create_order_length (m : InventoryManager) (u pid : String) (q : Int)
    (safe : Bool) (now : Nat)
    (h : (m.products.lookup pid).isSome = true ∨ 1 ≤ q) :
    (create_order m u pid q safe now).2.orders.length = m.orders.length + 1 := by
  rcases hres : reserveResult m pid q safe with ⟨r1, m1⟩
  have morders : m1.orders = m.orders := by
    have hmo := reserveResult_orders m pid q safe
    rw [hres] at hmo
    exact hmo
  rcases r1 with e | b
  · rcases e with ⟨pid2, v⟩ | pid2
    · rw [create_order_oversell m m1 u pid pid2 q v safe now hres]
      simp [morders]
    · exact absurd (by rw [hres]) (reserveResult_not_keyError m pid q safe h pid2)
  · cases b
    · rw [create_order_ok_false m m1 u pid q safe now hres]
      simp [morders]
    · rw [create_order_ok_true m m1 u pid q safe now hres]
      simp [morders]

theorem runOrders_length (w : InventoryManager) (rs : List PurchaseRequest)
    (hq1 : ∀ r ∈ rs, 1 ≤ r.quantity) :
    (runOrders w rs).orders.length = w.orders.length + rs.length := by
  induction rs generalizing w with
  | nil => simp [runOrders]
  | cons r rest ih =>
      have h1 : 1 ≤ r.quantity := hq1 r (by simp)
      have hrest : ∀ x ∈ rest, 1 ≤ x.quantity := fun x hx => hq1 x (by simp [hx])
      have hstep := create_order_length w r.user_id r.product_id r.quantity r.use_safe r.now
        (Or.inr h1)
      have htail := ih (w := (create_order w r.user_id r.product_id r.quantity
        r.use_safe r.now).2) hrest
      have hfold : runOrders w (r :: rest)
          = runOrders (create_order w r.user_id r.product_id r.quantity
              r.use_safe r.now).2 rest := by
        simp [runOrders]
      rw [hfold, htail, hstep]
      simp only [List.length_cons]
      omega

/-- **C6 — counterexample.**  The claim says every `create_order` call appends
exactly one order.  At the concrete input (unknown product `ghost_999`,
quantity 0) the reservation raises `KeyError`, which `except ValueError` does
not catch, and the attempt appends no order at all. -/
theorem order_log_append_counterexample :
    ¬ ((create_order initManager ("u1") ("ghost_999") 0 true 7).2.orders.length
        = initManager.orders.length + 1) := by decide

/-- **C6 (amended).**  Every purchase attempt whose reservation returns
`True`, returns `False`, or raises the overselling `ValueError` appends
exactly one order — `confirmed`, `failed_insufficient_inventory`, or
`failed_overselling` respectively, the overselling error still propagating to
the caller — so N attempts with positive quantities grow the log by exactly N.
The one exception forced by the counterexample: an attempt whose reservation
raises `KeyError` (unknown product with non-positive quantity) appends
nothing. -/
theorem order_log_append (m : InventoryManager) (u pid : String) (q : Int)
    (safe : Bool) (now : Nat)
    (h : (m.products.lookup pid).isSome = true ∨ 1 ≤ q) :
    ((create_order m u pid q safe now).2.orders.length = m.orders.length + 1) ∧
    ((reserveResult m pid q safe).1 = .ok true →
        (create_order m u pid q safe now).2.orders
          = m.orders ++ [⟨mkOrderId m.orders.length u now, u, pid, q, now, "confirmed"⟩]) ∧
    ((reserveResult m pid q safe).1 = .ok false →
        (create_order m u pid q safe now).2.orders
          = m.orders
              ++ [⟨mkOrderId m.orders.length u now, u, pid, q, now,
                    "failed_insufficient_inventory"⟩]) ∧
    (∀ (pid2 : String) (v : Int),
        (reserveResult m pid q safe).1 = .error (.oversellingDetected pid2 v) →
        (create_order m u pid q safe now).2.orders
          = m.orders
              ++ [⟨mkOrderId m.orders.length u now, u, pid, q, now, "failed_overselling"⟩] ∧
        (create_order m u pid q safe now).1 = .error (.oversellingDetected pid2 v)) ∧
    (∀ (w : InventoryManager) (rs : List PurchaseRequest),
        (∀ r ∈ rs, 1 ≤ r.quantity) →
        (runOrders w rs).orders.length = w.orders.length + rs.length) := by
  have hlen := create_order_length m u pid q safe now h
  rcases hres : reserveResult m pid q safe with ⟨r1, m1⟩
  have morders : m1.orders = m.orders := by
    have hmo := reserveResult_orders m pid q safe
    rw [hres] at hmo
    exact hmo
  refine ⟨hlen, ?_, ?_, ?_, runOrders_length⟩
  · intro ht
    have hr1 : r1 = .ok true := ht
    subst hr1
    rw [create_order_ok_true m m1 u pid q safe now hres, morders]
  · intro hf
    have hr1 : r1 = .ok false := hf
    subst hr1
    rw [create_order_ok_false m m1 u pid q safe now hres, morders]
  · intro pid2 v hov
    have hr1 : r1 = .error (.oversellingDetected pid2 v) := hov
    subst hr1
    rw [create_order_oversell m m1 u pid pid2 q v safe now hres, morders]
    exact ⟨rfl, rfl⟩

/-- Witness for C6 (amended): one safe purchase of one laptop grows the log
from 0 to 1 order. -/
theorem order_log_append_witness :
    (create_order initManager ("u1") ("laptop_001") 1 true 0).2.orders.length
      = initManager.orders.length + 1 :=
  (order_log_append initManager ("u1") ("laptop_001") 1 true 0 (Or.inr (by decide))).1

/-! ## C8: the inventory report -/

theorem lookup_map_entry {β : Type} (l : List (String × Product))
    (f : String → Product → β) (k : String) (v : Product)
    (h : l.lookup k = some v) :
    (l.map (fun kv => (kv.1, f kv.1 kv.2))).lookup k = some (f k v) := by
  induction l with
  | nil => simp [List.lookup] at h
  | cons kv rest ih =>
      obtain ⟨k0, v0⟩ := kv
      by_cases hk : k = k0
      · subst hk
        simp only [List.lookup, beq_self_eq_true, if_true, Option.some.injEq] at h
        simp only [List.map, List.lookup, beq_self_eq_true, if_true, Option.some.injEq]
        exact congrArg (f k) h
      · have hb : (k == k0) = false := beq_eq_false_iff_ne.mpr hk
        simp only [List.lookup, hb, if_false] at h
        simp only [List.map, List.lookup, hb, if_false]
        exact ih h

/-- **C8.**  For every product in the ledger, the report of
`get_inventory_report` holds that product's current stock count and the number
of confirmed orders recorded for it.  The operation is read-only by
construction: in the embedding it returns only the report and no successor
state, mirroring that the Python method never assigns to `self`. -/
theorem inventory_report_content (m : InventoryManager) (pid : String) (p : Product)
    (h : m.products.lookup pid = some p) :
    (get_inventory_report m).products.lookup pid
      = some ⟨p.name, p.inventory_count,
          m.orders.countP (fun o => o.product_id == pid && o.status == "confirmed")⟩ := by
  unfold get_inventory_report
  dsimp only
  rw [List.countP_eq_length_filter]
  exact lookup_map_entry m.products
    (fun k v => (⟨v.name, v.inventory_count,
        (m.orders.filter (fun o => o.product_id == k && o.status == "confirmed")).length⟩
      : ProductReportEntry))
    pid p h

/-- Witness for C8: the initial report entry for `tablet_003`. -/
theorem inventory_report_content_witness :
    (get_inventory_report initManager).products.lookup ("tablet_003")
      = some ⟨"Tablet", 2, 0⟩ :=
  inventory_report_content initManager ("tablet_003") ⟨"tablet_003", "Tablet", 499.99, 2⟩ rfl

/-! ## C9: order ids are pairwise distinct -/

theorem digitChar_ne_underscore : ∀ d < 10, Nat.digitChar d ≠ '_' := by decide

theorem digitChar_val : ∀ d < 10, (Nat.digitChar d).toNat - 48 = d := by decide

theorem natDigits_ne_underscore (n : Nat) : ∀ c ∈ natDigits n, c ≠ '_' := by
  induction n using Nat.strong_induction_on with
  | _ n ih =>
      intro c hc
      rw [natDigits] at hc
      by_cases h : n < 10
      · rw [if_pos h] at hc
        simp at hc
        subst hc
        exact digitChar_ne_underscore n h
      · rw [if_neg h] at hc
        rw [List.mem_append] at hc
        rcases hc with hc | hc
        · exact ih (n / 10) (Nat.div_lt_self (by omega) (by omega)) c hc
        · simp at hc
          subst hc
          exact digitChar_ne_underscore (n % 10) (Nat.mod_lt _ (by omega))

theorem digitsVal_append (l : List Char) (c : Char) :
    digitsVal (l ++ [c]) = 10 * digitsVal l + (c.toNat - 48) := by
  unfold digitsVal
  rw [List.foldl_append]
  rfl

theorem digitsVal_natDigits (n : Nat) : digitsVal (natDigits n) = n := by
  induction n using Nat.strong_induction_on with
  | _ n ih =>
      rw [natDigits]
      by_cases h : n < 10
      · rw [if_pos h]
        have hv := digitChar_val n h
        simp [digitsVal]
        omega
      · rw [if_neg h]
        rw [digitsVal_append]
        rw [ih (n / 10) (Nat.div_lt_self (by omega) (by omega))]
        have hv := digitChar_val (n % 10) (Nat.mod_lt _ (by omega))
        omega

theorem takeWhile_append_underscore (l tail : List Char) (h : ∀ c ∈ l, c ≠ '_') :
    (l ++ '_' :: tail).takeWhile (fun c => c != '_') = l := by
  induction l with
  | nil => simp [List.takeWhile]
  | cons c rest ih =>
      have hc : c ≠ '_' := h c (by simp)
      have hb : (c != '_') = true := bne_iff_ne.mpr hc
      simp only [List.cons_append, List.takeWhile_cons, hb, if_true]
      rw [ih (fun x hx => h x (by simp [hx]))]

theorem extractIdx_mkOrderId (L : Nat) (u : String) (t : Nat) :
    extractIdx (mkOrderId L u t) = L := by
  unfold extractIdx mkOrderId natStr
  have h1 : ("order_").data = ['o', 'r', 'd', 'e', 'r', '_'] := rfl
  have h2 : ("_").data = ['_'] := rfl
  have h3 : ∀ l : List Char, (String.mk l).data = l := fun l => rfl
  have hdata : ("order_" ++ String.mk (natDigits L) ++ "_" ++ u ++ "_"
        ++ String.mk (natDigits t)).data
      = 'o' :: 'r' :: 'd' :: 'e' :: 'r' :: '_'
          :: (natDigits L ++ '_' :: (u.data ++ '_' :: natDigits t)) := by
    simp [String.data_append, h1, h2, h3]
  rw [hdata]
  show digitsVal
      ((natDigits L ++ '_' :: (u.data ++ '_' :: natDigits t)).takeWhile (fun c => c != '_')) = L
  rw [takeWhile_append_underscore _ _ (natDigits_ne_underscore L)]
  exact digitsVal_natDigits L

theorem idsIndexed_of_append {os : List Order} {o : Order}
    (hP : ∀ (j : Nat) (h : j < os.length), extractIdx (os[j].order_id) = j)
    (hid : extractIdx o.order_id = os.length) :
    ∀ (j : Nat) (h : j < (os ++ [o]).length), extractIdx ((os ++ [o])[j].order_id) = j := by
  intro j hj
  by_cases hlt : j < os.length
  · rw [List.getElem_append_left hlt]
    exact hP j hlt
  · have hlen : j < os.length + 1 := by simpa using hj
    have hj' : j = os.length := by omega
    subst hj'
    rw [List.getElem_append_right (le_refl _)]
    simpa using hid

theorem idsIndexed_create_order {m : InventoryManager} (hP : idsIndexed m)
    (u pid : String) (q : Int) (safe : Bool) (now : Nat) :
    idsIndexed (create_order m u pid q safe now).2 := by
  rcases hres : reserveResult m pid q safe with ⟨r1, m1⟩
  have morders : m1.orders = m.orders := by
    have hmo := reserveResult_orders m pid q safe
    rw [hres] at hmo
    exact hmo
  have happly : ∀ s : String,
      ∀ w : InventoryManager,
      w.orders = m.orders ++ [⟨mkOrderId m.orders.length u now, u, pid, q, now, s⟩] →
      idsIndexed w := by
    intro s w hw
    unfold idsIndexed
    simp only [hw]
    exact idsIndexed_of_append hP (extractIdx_mkOrderId m.orders.length u now)
  rcases r1 with e | b
  · rcases e with ⟨pid2, v⟩ | pid2
    · refine happly ("failed_overselling") _ ?_
      rw [create_order_oversell m m1 u pid pid2 q v safe now hres]
      simp [morders]
    · rw [create_order_keyError m m1 u pid pid2 q safe now hres]
      unfold idsIndexed
      simp only [morders]
      exact hP
  · cases b
    · refine happly ("failed_insufficient_inventory") _ ?_
      rw [create_order_ok_false m m1 u pid q safe now hres]
      simp [morders]
    · refine happly ("confirmed") _ ?_
      rw [create_order_ok_true m m1 u pid q safe now hres]
      simp [morders]

theorem idsIndexed_runOrders (rs : List PurchaseRequest) {m : InventoryManager}
    (hP : idsIndexed m) : idsIndexed (runOrders m rs) := by
  induction rs generalizing m with
  | nil => simpa [runOrders] using hP
  | cons r rest ih =>
      have h1 := idsIndexed_create_order hP r.user_id r.product_id r.quantity r.use_safe r.now
      have h2 := ih h1
      simpa [runOrders] using h2

theorem pairwise_of_idsIndexed {m : InventoryManager} (hP : idsIndexed m) :
    m.orders.Pairwise (fun a b => a.order_id ≠ b.order_id) := by
  rw [List.pairwise_iff_getElem]
  intro i j hi hj hij heq
  have h1 := hP i hi
  have h2 := hP j hj
  rw [heq] at h1
  rw [h2] at h1
  omega

/-- **C9.**  For every sequence of `create_order` calls on a fresh
`InventoryManager` — any user identifiers, product identifiers, quantities,
modes and timestamps — the `order_id` values of all orders appended to the
log are pairwise distinct: each id embeds the log length at creation time,
which is the order's final position in the log. -/
theorem order_ids_pairwise_distinct (rs : List PurchaseRequest) :
    (runOrders initManager rs).orders.Pairwise (fun a b => a.order_id ≠ b.order_id) := by
  have h0 : idsIndexed initManager := by
    intro j h
    simp [initManager] at h
  exact pairwise_of_idsIndexed (idsIndexed_runOrders rs h0)
